import Mathlib

/-!
# Rent-vs-Buy simulation engine: a verification development

A shallow embedding, over exact rationals, of the financial simulation
engine of the rent-vs-buy application (`app.py`, with the Monte Carlo
layer of `app_original01.py`): loan amortization with rate schedules,
extra principal payments, PMI and a mid-life refinance; the
opportunity-cost investor step of the annual cost projection; the
refinance breakeven calculator; remaining-balance lookup; and the
seeded Monte Carlo trial loop.

Monetary quantities are modelled as rationals, and Python's
`round(x, 2)` as round-half-to-even on the scaled value, so cent-level
statements can be settled exactly.  Calendar dates are modelled with
the standard civil-calendar day count, matching `datetime`/`pandas`
day arithmetic on valid dates.
-/

namespace RentVsBuy

/- Batteries marks the core rational operations `@[irreducible]`; the
concrete evaluations below need them to unfold definitionally. -/
attribute [local semireducible] Rat.add Rat.mul Rat.inv Rat.sub Rat.ofScientific

set_option maxRecDepth 40000

/-! ## Rounding

`bround` is round-half-to-even to an integer (Python's `round`), and
`round2` is Python's `round(x, 2)`: all monetary rounding in
`amortization_schedule` goes through it (src/app.py lines 485, 505,
513, 516, 524-531, 542). -/

/-- Round half to even: the model of Python's builtin `round` on an
exact rational value. -/
def bround (q : ℚ) : ℤ :=
  if q - ⌊q⌋ < 1/2 then ⌊q⌋
  else if 1/2 < q - ⌊q⌋ then ⌊q⌋ + 1
  else if 2 ∣ ⌊q⌋ then ⌊q⌋ else ⌊q⌋ + 1

/-- Python's `round(x, 2)`: round to the nearest cent, ties to even. -/
def round2 (q : ℚ) : ℚ := (bround (q * 100) : ℚ) / 100

/-- A quantity that is a whole number of cents. -/
def Cents (q : ℚ) : Prop := ∃ k : ℤ, q = (k : ℚ) / 100

theorem bround_bounds (q : ℚ) :
    q - 1/2 ≤ (bround q : ℚ) ∧ (bround q : ℚ) ≤ q + 1/2 := by
  unfold bround
  have hfl : ((⌊q⌋ : ℤ) : ℚ) ≤ q := Int.floor_le q
  have hfu : q < ((⌊q⌋ : ℤ) : ℚ) + 1 := Int.lt_floor_add_one q
  by_cases h1 : q - (⌊q⌋ : ℚ) < 1/2
  · simp only [h1, if_true]
    constructor <;> linarith
  · simp only [h1, if_false]
    by_cases h2 : (1:ℚ)/2 < q - (⌊q⌋ : ℚ)
    · simp only [h2, if_true]
      constructor <;> push_cast <;> linarith
    · simp only [h2, if_false]
      have heq : q - (⌊q⌋ : ℚ) = 1/2 := le_antisymm (not_lt.mp h2) (not_lt.mp h1)
      by_cases h3 : (2:ℤ) ∣ ⌊q⌋
      · simp only [h3, if_true]
        constructor <;> linarith
      · simp only [h3, if_false]
        constructor <;> push_cast <;> linarith

theorem bround_nonneg {q : ℚ} (h : 0 ≤ q) : 0 ≤ bround q := by
  unfold bround
  have hfl : (0:ℤ) ≤ ⌊q⌋ := Int.floor_nonneg.mpr h
  split
  · exact hfl
  · split
    · omega
    · split
      · exact hfl
      · omega

theorem bround_intCast (k : ℤ) : bround (k : ℚ) = k := by
  unfold bround
  rw [Int.floor_intCast]
  have h : ((k : ℤ) : ℚ) - (k : ℚ) < 1/2 := by norm_num
  simp [h]

theorem bround_eq_zero_of_abs_le {q : ℚ} (h : |q| ≤ 1/2) : bround q = 0 := by
  rcases abs_le.mp h with ⟨hl, hr⟩
  unfold bround
  by_cases hq : 0 ≤ q
  · have hfl : ⌊q⌋ = 0 := Int.floor_eq_iff.mpr (by constructor <;> push_cast <;> linarith)
    rw [hfl]
    by_cases h1 : q - ((0:ℤ) : ℚ) < 1/2
    · rw [if_pos h1]
    · have h2 : ¬ ((1:ℚ)/2 < q - ((0:ℤ) : ℚ)) := by push_cast; linarith
      have h3 : (2:ℤ) ∣ 0 := ⟨0, rfl⟩
      rw [if_neg h1, if_neg h2, if_pos h3]
  · push_neg at hq
    have hfl : ⌊q⌋ = -1 := Int.floor_eq_iff.mpr (by constructor <;> push_cast <;> linarith)
    rw [hfl]
    have h1 : ¬ (q - ((-1:ℤ) : ℚ) < 1/2) := by push_cast; linarith
    have hodd : ¬ ((2:ℤ) ∣ (-1)) := by decide
    by_cases h2 : (1:ℚ)/2 < q - ((-1:ℤ) : ℚ)
    · rw [if_neg h1, if_pos h2]
      norm_num
    · rw [if_neg h1, if_neg h2, if_neg hodd]
      norm_num

theorem round2_bounds (q : ℚ) :
    q - 1/200 ≤ round2 q ∧ round2 q ≤ q + 1/200 := by
  obtain ⟨h1, h2⟩ := bround_bounds (q * 100)
  unfold round2
  constructor <;> linarith

theorem round2_cents (q : ℚ) : Cents (round2 q) := ⟨bround (q * 100), rfl⟩

theorem round2_eq_self {q : ℚ} (h : Cents q) : round2 q = q := by
  obtain ⟨k, rfl⟩ := h
  unfold round2
  have h100 : ((k : ℚ) / 100) * 100 = (k : ℚ) := by field_simp
  rw [h100, bround_intCast]

theorem round2_nonneg {q : ℚ} (h : 0 ≤ q) : 0 ≤ round2 q := by
  unfold round2
  have := bround_nonneg (q := q * 100) (by positivity)
  positivity

theorem round2_eq_zero_of_abs_le {q : ℚ} (h : |q| ≤ 1/200) : round2 q = 0 := by
  unfold round2
  have habs : |q * 100| ≤ 1/2 := by
    rw [abs_mul, abs_of_nonneg (by norm_num : (0:ℚ) ≤ 100)]
    calc |q| * 100 ≤ (1/200) * 100 := mul_le_mul_of_nonneg_right h (by norm_num)
      _ = 1/2 := by norm_num
  rw [bround_eq_zero_of_abs_le habs]
  norm_num

theorem Cents.sub {a b : ℚ} (ha : Cents a) (hb : Cents b) : Cents (a - b) := by
  obtain ⟨k, rfl⟩ := ha
  obtain ⟨l, rfl⟩ := hb
  exact ⟨k - l, by push_cast; ring⟩

/-- Whole-cent quantities separated by at most half a cent are ordered:
`a ≤ b + 1/200` forces `a ≤ b`. -/
theorem Cents.le_of_le_add {a b : ℚ} (ha : Cents a) (hb : Cents b)
    (h : a ≤ b + 1/200) : a ≤ b := by
  obtain ⟨k, rfl⟩ := ha
  obtain ⟨l, rfl⟩ := hb
  have hk : (k : ℚ) ≤ (l : ℚ) + 1/2 := by linarith
  have hkl : k ≤ l := by
    by_contra hc
    push_neg at hc
    have : ((l : ℚ) + 1) ≤ (k : ℚ) := by exact_mod_cast Int.add_one_le_iff.mpr hc
    linarith
  have : (k : ℚ) ≤ (l : ℚ) := by exact_mod_cast hkl
  linarith

/-! ## Calendar dates

`datetime`/`pandas` timestamps are modelled as civil-calendar dates.
`Date.toDays` is the standard days-from-civil algorithm (days since
1970-01-01), so date comparison and day differences agree with
`timedelta` arithmetic.  `Date.addMonths` models `pd.DateOffset(months=n)`
(add to the month index, clip the day to the target month's length);
`Date.addDays` models `timedelta(days=n)`. -/

structure Date where
  year : ℤ
  month : ℕ
  day : ℕ
deriving DecidableEq, Repr

def Date.isLeap (y : ℤ) : Bool :=
  y % 4 == 0 && (y % 100 != 0 || y % 400 == 0)

def Date.daysInMonth (y : ℤ) (m : ℕ) : ℕ :=
  if m = 2 then (if Date.isLeap y then 29 else 28)
  else if m = 4 ∨ m = 6 ∨ m = 9 ∨ m = 11 then 30
  else 31

/-- Days since 1970-01-01 (Gregorian, proleptic). -/
def Date.toDays (d : Date) : ℤ :=
  let y : ℤ := if d.month ≤ 2 then d.year - 1 else d.year
  let era : ℤ := y.fdiv 400
  let yoe : ℤ := y - era * 400
  let mp : ℤ := if 2 < d.month then (d.month : ℤ) - 3 else (d.month : ℤ) + 9
  let doy : ℤ := (153 * mp + 2).fdiv 5 + (d.day : ℤ) - 1
  let doe : ℤ := yoe * 365 + yoe.fdiv 4 - yoe.fdiv 100 + doy
  era * 146097 + doe - 719468

/-- Inverse of `Date.toDays` (civil-from-days). -/
def Date.fromDays (z0 : ℤ) : Date :=
  let z : ℤ := z0 + 719468
  let era : ℤ := z.fdiv 146097
  let doe : ℤ := z - era * 146097
  let yoe : ℤ := (doe - doe.fdiv 1460 + doe.fdiv 36524 - doe.fdiv 146096).fdiv 365
  let y : ℤ := yoe + era * 400
  let doy : ℤ := doe - (365 * yoe + yoe.fdiv 4 - yoe.fdiv 100)
  let mp : ℤ := (5 * doy + 2).fdiv 153
  let d : ℤ := doy - (153 * mp + 2).fdiv 5 + 1
  let m : ℤ := if mp < 10 then mp + 3 else mp - 9
  ⟨(if m ≤ 2 then y + 1 else y), m.toNat, d.toNat⟩

/-- `pd.DateOffset(months=n)`: advance the month index and clip the
day-of-month to the target month. -/
def Date.addMonths (d : Date) (n : ℕ) : Date :=
  let mm : ℤ := (d.month : ℤ) - 1 + n
  let y : ℤ := d.year + mm.fdiv 12
  let m : ℕ := (mm.emod 12).toNat + 1
  ⟨y, m, min d.day (Date.daysInMonth y m)⟩

/-- `timedelta(days=n)`. -/
def Date.addDays (d : Date) (n : ℤ) : Date :=
  Date.fromDays (d.toDays + n)

/-- `(a - b).days` on timestamps. -/
def Date.diffDays (a b : Date) : ℤ := a.toDays - b.toDays


/-! ## The annuity payment formula -/

/-- `npf.pmt(c, nper, -pv)`: the standard fixed-payment annuity
formula `pv * c / (1 - (1+c)^(-nper))`, with the rate-zero limit
`pv / nper`. -/
def npfPmt (c : ℚ) (nper : ℤ) (pv : ℚ) : ℚ :=
  if c = 0 then pv / (nper : ℚ) else pv * c / (1 - (1 + c) ^ (-nper))

/-- `npf.pmt` with a possibly fractional period count, as the
variable-rate branch computes `remaining_periods / (periods_per_year / 12)`
(src/app.py line 512).  For an integral count — always the case at the
monthly frequency, the only regime in which any theorem below is
stated — this is exactly the source's formula.  A fractional count
makes the source take a real power, which has no rational value; this
model returns 0 there, and no claim is settled in that regime. -/
def npfPmtQ (c : ℚ) (nper : ℚ) (pv : ℚ) : ℚ :=
  if nper.den = 1 then npfPmt c nper.num pv else 0

/-! ## Rate schedules -/

/-- A rate schedule: (Year, Rate %) rows in dataframe row order. -/
abbrev RateSched := List (ℤ × ℚ)

/-- Stable insertion into a year-sorted schedule. -/
def insertByYear (e : ℤ × ℚ) : RateSched → RateSched
  | [] => [e]
  | x :: xs => if x.1 < e.1 then x :: insertByYear e xs else e :: x :: xs

/-- `sort_values("Year")` with ties keeping row order (stable). -/
def sortByYear : RateSched → RateSched
  | [] => []
  | x :: xs => insertByYear x (sortByYear xs)

/-- Rows with `Year <= year_elapsed` sorted by year; the applicable
rate (in percent, scaled to a fraction) is the last such row, with a
fallback when none applies (src/app.py lines 481-483 and 507-508). -/
def lookupRate (sched : RateSched) (yearElapsed : ℤ) (fallback : ℚ) : ℚ :=
  match (sortByYear (sched.filter (fun e => decide (e.1 ≤ yearElapsed)))).getLast? with
  | some e => e.2 / 100
  | none => fallback

/-- Mortgage type. -/
inductive MType where
  | Fixed : MType
  | Variable : MType
deriving DecidableEq, Repr

/-- Python truthiness of an optional float: `None` and `0.0` are falsy. -/
def pyTruthy : Option ℚ → Bool
  | none => false
  | some x => x != 0

/-! ## Amortization engine (src/app.py lines 424-546) -/

/-- The refinance parameters of `amortization_schedule` (src/app.py
lines 437-443), bundled as one optional record: the engine's horizon
extension (line 474) and transition (line 493) are exercised with
either none or all of them supplied. -/
structure RefiParams where
  startDate : Date
  principal : ℚ
  years : ℕ
  periodsPerYear : ℕ
  rateSchedule : RateSched
  mortgageType : MType
  mortgageRate : Option ℚ
deriving DecidableEq, Repr

/-- The parameters of `amortization_schedule` (src/app.py lines 424-444). -/
structure AmortParams where
  principal : ℚ
  years : ℕ
  periodsPerYear : ℕ
  startDate : Date
  extraSchedule : List (Date × ℚ)
  rateSchedule : RateSched
  mortgageType : MType
  purchaseYear : ℤ
  mortgageRate : ℚ
  pmiRate : ℚ
  pmiEquityThreshold : ℚ
  purchasePrice : ℚ
  refi : Option RefiParams
deriving DecidableEq, Repr

/-- One emitted row of the period ledger (src/app.py lines 533-543). -/
structure PaymentRecord where
  date : Date
  payment : ℚ
  interest : ℚ
  principal : ℚ
  extra : ℚ
  pmi : ℚ
  balance : ℚ
  isRefi : Bool
  effRate : ℚ
deriving DecidableEq, Repr

/-- A placeholder row for out-of-range ledger indexing. -/
def dummyRecord : PaymentRecord :=
  { date := ⟨0, 1, 1⟩, payment := 0, interest := 0, principal := 0, extra := 0,
    pmi := 0, balance := 0, isRefi := false, effRate := 0 }

/-- Main-loan rate-schedule normalization (src/app.py lines 451-460):
Fixed forces a single year-1 row; an empty schedule falls back to the
initial rate; otherwise a year-1 row is synthesized (prepended, then
sorted by year) when absent. -/
def normRateSchedule (mtype : MType) (sched : RateSched) (rate : ℚ) : RateSched :=
  match mtype with
  | MType.Fixed => [(1, rate)]
  | MType.Variable =>
    if sched.isEmpty then [(1, rate)]
    else if sched.any (fun e => decide (e.1 = 1)) then sched
    else sortByYear ((1, rate) :: sched)

/-- Refinance rate-schedule normalization (src/app.py lines 462-471);
the fallbacks use Python truthiness of the optional refinance rate and
the empty-schedule fallback is the already-normalized main schedule. -/
def normRefiSched (R : RefiParams) (mainRate : ℚ) (normMain : RateSched) : RateSched :=
  if R.mortgageType = MType.Fixed ∧ R.mortgageRate ≠ none then
    [(1, R.mortgageRate.getD 0)]
  else if R.rateSchedule.isEmpty then
    (if pyTruthy R.mortgageRate then [(1, R.mortgageRate.getD 0)] else normMain)
  else if R.rateSchedule.any (fun e => decide (e.1 = 1)) then R.rateSchedule
  else sortByYear
    ((1, if pyTruthy R.mortgageRate then R.mortgageRate.getD 0 else mainRate) :: R.rateSchedule)

/-- Elapsed whole periods from loan start to refinance start,
`int(((refi_start - start).days / 365.25) * periods_per_year)`
(src/app.py line 475); `int` truncation equals the floor since the
refinance follows the loan start. -/
def refiStartPeriodCount (startDate : Date) (R : RefiParams) (ppy : ℕ) : ℤ :=
  ⌊(Date.diffDays R.startDate startDate : ℚ) / (1461/4) * (ppy : ℚ)⌋

/-- Scheduled date of period `k` counted from `base`: one calendar
month per period at the monthly frequency, 14 days at biweekly
(src/app.py lines 478-479, 490). -/
def periodDate (base : Date) (ppy : ℕ) (k : ℕ) : Date :=
  if ppy = 12 then base.addMonths k else base.addDays (14 * (k : ℤ))

/-- The extra-payment key closest to `cur`: Python `min` over the dict
keys by absolute day distance, keeping the earliest minimiser. -/
def closestExtra (cur : Date) : List (Date × ℚ) → Option (Date × ℚ)
  | [] => none
  | e :: es =>
    match closestExtra cur es with
    | none => some e
    | some b =>
      if (Date.diffDays b.1 cur).natAbs < (Date.diffDays e.1 cur).natAbs
      then some b else some e

/-- Extra principal applied in a period: the nearest extra-payment date
is used when within one period's tolerance — 30 days monthly, 14 days
biweekly (src/app.py lines 518-522). -/
def extraFor (sched : List (Date × ℚ)) (cur : Date) (ppy : ℕ) : ℚ :=
  match closestExtra cur sched with
  | none => 0
  | some e =>
    if (Date.diffDays e.1 cur).natAbs ≤ (if ppy = 12 then 30 else 14)
    then e.2 else 0

/-- Interest/principal split, final-payment clamp and balance update of
one period (src/app.py lines 524-531), as (interest, principal,
payment, new balance); `r` is the period rate `current_rate /
periods_per_year`. -/
def financeStep (r pay b e : ℚ) : ℚ × ℚ × ℚ × ℚ :=
  let interest := round2 (b * r)
  let p0 := round2 (pay - interest)
  if p0 + e > b then
    (interest, round2 (b - e), round2 (round2 (b - e) + interest),
      round2 (b - (round2 (b - e) + e)))
  else
    (interest, p0, pay, round2 (b - (p0 + e)))

/-- Mutable loop state of `amortization_schedule`. -/
structure SimState where
  balance : ℚ
  payment : ℚ
  isRefi : Bool
  refiStartPeriod : ℕ
  ppy : ℕ
  rateSched : RateSched
  mortgageType : MType
  purchaseYear : ℤ
deriving DecidableEq, Repr

/-- Term years of the active loan, `years if not is_refinanced else
refi_years` (src/app.py line 511). -/
def activeYears (P : AmortParams) (s : SimState) : ℕ :=
  if s.isRefi then (match P.refi with | some R => R.years | none => P.years)
  else P.years

/-- Payment from a monthly-equivalent amount: rounded directly at the
monthly frequency, scaled by 12/26 when biweekly (src/app.py lines
485, 505, 513). -/
def scalePayment (ppy : ℕ) (monthlyPayment : ℚ) : ℚ :=
  if ppy = 12 then round2 monthlyPayment else round2 (monthlyPayment * (12 / 26))

/-- Date of period `n`: counted from the loan start before the
refinance transition, from the refinance start after it (src/app.py
line 490). -/
def stepDate (P : AmortParams) (s : SimState) (n : ℕ) : Date :=
  if s.isRefi then
    match P.refi with
    | some R => periodDate R.startDate s.ppy (n - s.refiStartPeriod)
    | none => periodDate P.startDate s.ppy n
  else periodDate P.startDate s.ppy n

/-- Fallback annual rate of the per-period lookup (src/app.py line
508): the refinance rate once refinanced and truthy, else the initial
rate. -/
def stepFallbackRate (P : AmortParams) (s : SimState) : ℚ :=
  (match P.refi with
   | some R => if s.isRefi ∧ pyTruthy R.mortgageRate then R.mortgageRate.getD 0
               else P.mortgageRate
   | none => P.mortgageRate) / 100

/-- The annual rate in effect at period `n` for a state the transition
leaves unchanged (src/app.py lines 491 and 507-508). -/
def stepRate (P : AmortParams) (s : SimState) (n : ℕ) : ℚ :=
  lookupRate s.rateSched (max 1 ((stepDate P s n).year - s.purchaseYear + 1))
    (stepFallbackRate P s)

/-- The one-shot refinance transition (src/app.py lines 493-505): the
first period dated on or after the refinance start swaps in the
refinance principal, frequency, schedule, type and purchase year,
resets the elapsed-year counter to 1 and recomputes the payment over
the refinance term; otherwise the state passes through with the
elapsed year read off the period date. -/
def transitionState (P : AmortParams) (normRefi : RateSched) (s : SimState) (n : ℕ) :
    SimState × ℤ :=
  match P.refi with
  | some R =>
    if ¬ s.isRefi ∧ R.startDate.toDays ≤ (stepDate P s n).toDays then
      let fallback :=
        (if pyTruthy R.mortgageRate then R.mortgageRate.getD 0 else P.mortgageRate) / 100
      let rate := lookupRate normRefi 1 fallback
      ({ balance := R.principal
         payment := scalePayment R.periodsPerYear
           (npfPmt (rate / 12) ((R.years * 12 : ℕ) : ℤ) R.principal)
         isRefi := true
         refiStartPeriod := n
         ppy := R.periodsPerYear
         rateSched := normRefi
         mortgageType := R.mortgageType
         purchaseYear := R.startDate.year }, 1)
    else (s, max 1 ((stepDate P s n).year - s.purchaseYear + 1))
  | none => (s, max 1 ((stepDate P s n).year - s.purchaseYear + 1))

/-- One iteration of the simulation loop of `amortization_schedule`
(src/app.py lines 489-546): period date, one-shot refinance transition,
rate lookup, variable-rate re-amortization, PMI, extra-payment lookup,
and the interest/principal/balance update. -/
def amortStep (P : AmortParams) (normRefi : RateSched) (s : SimState) (n : ℕ) :
    SimState × PaymentRecord :=
  let currentDate := stepDate P s n
  let t : SimState × ℤ := transitionState P normRefi s n
  let s1 := t.1
  let yearElapsed := t.2
  let rate := lookupRate s1.rateSched yearElapsed (stepFallbackRate P s1)
  let pay1 :=
    if s1.mortgageType = MType.Variable ∧ 0 < n then
      scalePayment s1.ppy
        (npfPmtQ (rate / 12)
          ((((activeYears P s1 * s1.ppy : ℕ) : ℤ) - (n : ℤ) : ℚ) * 12 / (s1.ppy : ℚ))
          s1.balance)
    else s1.payment
  let equity :=
    if 0 < P.purchasePrice then (P.purchasePrice - s1.balance) / P.purchasePrice * 100 else 0
  let pmiPay :=
    if equity < P.pmiEquityThreshold then round2 (P.principal * P.pmiRate / 100 / 12) else 0
  let extra := extraFor P.extraSchedule currentDate s1.ppy
  let fs := financeStep (rate / (s1.ppy : ℚ)) pay1 s1.balance extra
  ({ s1 with balance := fs.2.2.2, payment := fs.2.2.1 },
   { date := currentDate, payment := fs.2.2.1, interest := fs.1, principal := fs.2.1,
     extra := extra, pmi := pmiPay, balance := fs.2.2.2, isRefi := s1.isRefi,
     effRate := round2 (rate * 100) })

/-- The simulation loop: one record per period until the horizon is
exhausted or the balance reaches zero (src/app.py lines 489-546). -/
def amortLoop (P : AmortParams) (normRefi : RateSched) :
    ℕ → ℕ → SimState → List PaymentRecord
  | 0, _, _ => []
  | fuel + 1, n, s =>
    let step := amortStep P normRefi s n
    step.2 :: (if step.1.balance ≤ 0 then [] else amortLoop P normRefi fuel (n + 1) step.1)

/-- The period-level ledger of `amortization_schedule` (src/app.py
lines 424-546). -/
def amortizationSchedule (P : AmortParams) : List PaymentRecord :=
  let normMain := normRateSchedule P.mortgageType P.rateSchedule P.mortgageRate
  let normRefi :=
    match P.refi with
    | some R => normRefiSched R P.mortgageRate normMain
    | none => normMain
  let nPeriods : ℕ :=
    (match P.refi with
     | none => ((P.years * P.periodsPerYear : ℕ) : ℤ)
     | some R => max ((P.years * P.periodsPerYear : ℕ) : ℤ)
         (refiStartPeriodCount P.startDate R P.periodsPerYear
           + ((R.years * R.periodsPerYear : ℕ) : ℤ))).toNat
  let ye0 := max 1 (P.startDate.year - P.purchaseYear + 1)
  let rate0 := lookupRate normMain ye0 (P.mortgageRate / 100)
  let pay0 := scalePayment P.periodsPerYear
    (npfPmt (rate0 / 12) ((P.years * 12 : ℕ) : ℤ) P.principal)
  amortLoop P normRefi nPeriods 0
    { balance := P.principal, payment := pay0, isRefi := false, refiStartPeriod := 0,
      ppy := P.periodsPerYear, rateSched := normMain, mortgageType := P.mortgageType,
      purchaseYear := P.purchaseYear }

/-! ## Extra-payment expansion (src/app.py lines 365-421) -/

/-- Extra-payment recurrence kinds of the rules table. -/
inductive EPFreq where
  | OneTime : EPFreq
  | Monthly : EPFreq
  | Quarterly : EPFreq
  | Annually : EPFreq
  | EveryX : EPFreq
deriving DecidableEq, Repr

/-- Payment frequency of the simulated loan. -/
inductive PayFreq where
  | Monthly : PayFreq
  | Biweekly : PayFreq
deriving DecidableEq, Repr

/-- One extra-payment rule row (amount, recurrence, start year/month,
end year/month, every-N-years interval). -/
structure EPRule where
  amount : ℚ
  freq : EPFreq
  startY : ℤ
  startM : ℤ
  endY : ℤ
  endM : ℤ
  interval : ℕ
deriving DecidableEq, Repr

/-- Dates generated by a recurring rule: step from the start until
past the rule's end date.  `fuel` bounds the loop and is instantiated
at the call site to exceed the number of generated dates (each step
advances at least one month). -/
def ruleDates (step : Date → Date) (endD : Date) : Date → ℕ → List Date
  | _, 0 => []
  | cur, fuel + 1 =>
    if cur.toDays ≤ endD.toDays then cur :: ruleDates step endD (step cur) fuel
    else []

/-- `extra_schedule[p] = extra_schedule.get(p, 0) + amt` on an
insertion-ordered association list (the dict of the source). -/
def addToSched (sched : List (Date × ℚ)) (d : Date) (a : ℚ) : List (Date × ℚ) :=
  match sched with
  | [] => [(d, a)]
  | e :: es => if e.1 = d then (e.1, e.2 + a) :: es else e :: addToSched es d a

/-- The payment date closest to `target`: Python `min` by absolute day
distance keeps the earliest minimiser. -/
def closestDate (target : Date) : List Date → Option Date
  | [] => none
  | d :: ds =>
    match closestDate target ds with
    | none => some d
    | some b =>
      if (Date.diffDays b target).natAbs < (Date.diffDays d target).natAbs
      then some b else some d

/-- Application of one concrete date of one rule to the schedule
(src/app.py lines 408-417): match payment dates by calendar month; a
monthly rule under the biweekly frequency splits over all matching
periods, otherwise the single nearest matching date receives the full
amount. -/
def applyRuleDate (paymentDates : List Date) (ppy : ℕ) (rule : EPRule)
    (sched : List (Date × ℚ)) (applyDate : Date) : List (Date × ℚ) :=
  let matching := paymentDates.filter
    (fun p => decide (p.year = applyDate.year) && decide (p.month = applyDate.month))
  if matching.isEmpty then sched
  else if rule.freq = EPFreq.Monthly ∧ ppy = 26 ∧ 1 < matching.length then
    matching.foldl (fun acc p => addToSched acc p (rule.amount / (matching.length : ℚ))) sched
  else
    match closestDate applyDate matching with
    | some p => addToSched sched p rule.amount
    | none => sched

/-- `expand_extra_payments(df, start_year, loan_years, frequency)`
(src/app.py lines 365-421): turns rule rows into a mapping from
concrete payment dates to extra-principal amounts.  Rows the source
drops (`dropna`, the validation at line 388, the non-numeric `except`)
are modelled by the same validation test; every rule row here is
well-typed. -/
def expandExtraPayments (rules : List EPRule) (startYear : ℤ) (loanYears : ℕ)
    (frequency : PayFreq) : List (Date × ℚ) :=
  let ppy : ℕ := match frequency with | PayFreq.Monthly => 12 | PayFreq.Biweekly => 26
  let startDate : Date := ⟨startYear, 1, 1⟩
  let paymentDates := (List.range (loanYears * ppy)).map (fun i => periodDate startDate ppy i)
  rules.foldl (fun sched rule =>
    let interval : ℕ := if rule.freq = EPFreq.EveryX then rule.interval else 1
    if rule.amount ≤ 0 ∨ rule.startY < startYear ∨ startYear + loanYears < rule.startY
        ∨ rule.startM < 1 ∨ 12 < rule.startM ∨ rule.endY < rule.startY
        ∨ startYear + loanYears < rule.endY ∨ rule.endM < 1 ∨ 12 < rule.endM then
      sched
    else
      let startD : Date := ⟨rule.startY, rule.startM.toNat, 1⟩
      let extraDates :=
        match rule.freq with
        | EPFreq.OneTime => [startD]
        | _ =>
          let endD : Date := ⟨rule.endY, rule.endM.toNat, 28⟩
          let stepMonths : ℕ :=
            match rule.freq with
            | EPFreq.Monthly => 1
            | EPFreq.Quarterly => 3
            | EPFreq.Annually => 12
            | _ => 12 * interval
          ruleDates (fun d => d.addMonths stepMonths) endD startD
            (((rule.endY - rule.startY).toNat + 1) * 12 + 1)
      extraDates.foldl (applyRuleDate paymentDates ppy rule) sched) []

/-! ## Cost projection: investor step and expense inflation
(`calculate_cost_comparison`, src/app.py lines 576-723) -/

/-- The opportunity-cost investor step (src/app.py lines 671-677):
`d = cost_difference = buy_cost - rent_cost`, `r` the annual investment
return in percent; returns (buy investment, rent investment). -/
def investorStep (r d buyInv rentInv : ℚ) : ℚ × ℚ :=
  if 0 < d then
    (buyInv * (1 + r / 100), rentInv * (1 + r / 100) + d)
  else
    (buyInv * (1 + r / 100) + |d|, rentInv * (1 + r / 100))

/-- The investor step inside each Monte Carlo trial
(src/app_original01.py lines 2047-2053): `rb` is that year's sampled
brokerage return, a fraction rather than a percent. -/
def mcInvestorStep (rb buyCost rentCost buyInv rentInv : ℚ) : ℚ × ℚ :=
  if rentCost < buyCost then
    (buyInv * (1 + rb), rentInv * (1 + rb) + (buyCost - rentCost))
  else
    (buyInv * (1 + rb) + (rentCost - buyCost), rentInv * (1 + rb))

/-- Year-`yearIdx` property taxes as `calculate_cost_comparison` of
src/app.py computes them (line 639): the base amount compounded at the
**appreciation** rate `annual_appreciation`. -/
def yearTaxes (taxes annualAppreciation : ℚ) (yearIdx : ℤ) : ℚ :=
  taxes * (1 + annualAppreciation / 100) ^ yearIdx

/-- Year-`yearIdx` home insurance (src/app.py line 640): the base
amount compounded at its own growth rate. -/
def yearInsurance (insurance annualInsuranceIncrease : ℚ) (yearIdx : ℤ) : ℚ :=
  insurance * (1 + annualInsuranceIncrease / 100) ^ yearIdx

/-- Year-`yearIdx` maintenance (src/app.py line 641). -/
def yearMaintenance (maintenance annualMaintenanceIncrease : ℚ) (yearIdx : ℤ) : ℚ :=
  maintenance * (1 + annualMaintenanceIncrease / 100) ^ yearIdx

/-- Year-`yearIdx` HOA fees (src/app.py line 642). -/
def yearHoa (hoa annualHoaIncrease : ℚ) (yearIdx : ℤ) : ℚ :=
  hoa * (1 + annualHoaIncrease / 100) ^ yearIdx

/-- Year-`yearIdx` property taxes as the original engine computes them
(src/app_original01.py line 789, and identically in the stochastic
loops at lines 1851 and 2014): compounded at the dedicated
property-tax growth rate. -/
def yearTaxesOriginal (taxes annualPropertyTaxIncrease : ℚ) (yearIdx : ℤ) : ℚ :=
  taxes * (1 + annualPropertyTaxIncrease / 100) ^ yearIdx

/-! ## Breakeven calculator (`calculate_breakeven`, src/app.py lines
726-742) -/

/-- One row of a monthly aggregate ledger, keeping the fields
`calculate_breakeven` reads. -/
structure MonthlyRow where
  interest : ℚ
  pmi : ℚ
deriving DecidableEq, Repr

/-- `Series.cumsum`. -/
def cumsumFrom (acc : ℚ) : List ℚ → List ℚ
  | [] => []
  | x :: xs => (acc + x) :: cumsumFrom (acc + x) xs

/-- Prefix sums of a series. -/
def cumsum (xs : List ℚ) : List ℚ := cumsumFrom 0 xs

/-- The savings series (src/app.py lines 731-735): cumulative
(interest + PMI) of the no-refinance ledger minus the with-refinance
one; pandas index alignment limits comparisons to the common length,
modelled by `zipWith`. -/
def savingsSeries (noRefi withRefi : List MonthlyRow) : List ℚ :=
  List.zipWith (fun a b => a - b)
    (List.zipWith (fun a b => a + b)
      (cumsum (noRefi.map MonthlyRow.interest)) (cumsum (noRefi.map MonthlyRow.pmi)))
    (List.zipWith (fun a b => a + b)
      (cumsum (withRefi.map MonthlyRow.interest)) (cumsum (withRefi.map MonthlyRow.pmi)))

/-- `calculate_breakeven` (src/app.py lines 726-742): upfront-financed
refinance costs only, `None` when they are zero or never recovered,
else the first month (1-based) whose cumulative savings reach them,
with the year count `month / 12`. -/
def calculateBreakeven (noRefi withRefi : List MonthlyRow)
    (refiCosts refiPointsCost : ℚ) (rollUpfront pointsUpfront : Bool) :
    Option (ℚ × ℕ) :=
  let totalCosts := (if rollUpfront then refiCosts else 0)
    + (if pointsUpfront then refiPointsCost else 0)
  if totalCosts = 0 then none
  else
    match (savingsSeries noRefi withRefi).findIdx? (fun s => decide (totalCosts ≤ s)) with
    | some i => some ((((i + 1 : ℕ) : ℚ) / 12), i + 1)
    | none => none

/-! ## Remaining balance at the refinance date (`get_remaining_balance`,
src/app.py lines 745-748) -/

/-- A ledger row as `get_remaining_balance` reads it. -/
structure SchedRow where
  date : Date
  balance : ℚ
deriving DecidableEq, Repr

/-- A placeholder row for out-of-range indexing. -/
def dummySchedRow : SchedRow := ⟨⟨0, 1, 1⟩, 0⟩

/-- `get_remaining_balance(schedule_df, refi_date)`: the balance of the
last row dated on or before `refiDate`, else the first row's balance;
`none` models the `iloc` failure on an empty frame. -/
def getRemainingBalance (sched : List SchedRow) (refiDate : Date) : Option ℚ :=
  match (sched.filter (fun r => decide (r.date.toDays ≤ refiDate.toDays))).getLast? with
  | some r => some r.balance
  | none => sched.head?.map SchedRow.balance

/-! ## Monte Carlo runner (src/app_original01.py lines 1959-2075) -/

/-- `sample_t_returns` (src/app_original01.py lines 22-29): `n`
Student-t draws from the seeded generator's stream `g` starting at
position `pos`, rescaled to unit variance and then affinely to the
target mean/std.  Modelled from the spec: the underlying
`rng.standard_t` draws are the abstract stream `g`, and the irrational
unit-variance factor `sqrt((df-2)/df)` is the parameter `tUnitScale`. -/
def sampleTReturns (n : ℕ) (meanPct stdPct tUnitScale : ℚ) (g : ℕ → ℚ) (pos : ℕ) :
    List ℚ :=
  (List.range n).map (fun i => meanPct / 100 + stdPct / 100 * (g (pos + i) * tUnitScale))

/-- `sample_lognormal_returns` (src/app_original01.py lines 31-39): `n`
lognormal gross-factor draws, minus 1.  Modelled from the spec: one
`rng.lognormal` draw is `grossOfDraw` applied to one stream value; the
lognormal parameters solved from the target mean/std are folded into
`grossOfDraw`, whose exact real form `exp(mu + sigma z)` has no
rational value. -/
def sampleLognormalReturns (n : ℕ) (grossOfDraw : ℚ → ℚ) (g : ℕ → ℚ) (pos : ℕ) :
    List ℚ :=
  (List.range n).map (fun i => grossOfDraw (g (pos + i)) - 1)

/-- Deterministic per-year inputs of the trial loop: aggregated
buy-side cost, rent-side cost and end-of-year loan balance, recomputed
identically for every trial from the deterministic inflation paths
(src/app_original01.py lines 2000-2040). -/
structure McYear where
  buyCost : ℚ
  rentCost : ℚ
  yearBalance : ℚ
deriving DecidableEq, Repr

/-- One year of one Monte Carlo trial (src/app_original01.py lines
2042-2059): the home value grows by the sampled housing return, equity
combines principal paid with non-negative appreciation, and the
investor step reinvests the cost difference at the sampled brokerage
return.  State: (home value, buy investment, rent investment); output:
the year's (buy, rent) total assets. -/
def mcYearStep (purchasePrice baseHomeValue : ℚ) (y : McYear) (hom bro : ℚ)
    (st : ℚ × ℚ × ℚ) : (ℚ × ℚ × ℚ) × (ℚ × ℚ) :=
  let hv := st.1 * (1 + hom)
  let equityPrincipal := purchasePrice - y.yearBalance
  let appreciation := hv - baseHomeValue
  let equityTotal := equityPrincipal + max 0 appreciation
  let inv := mcInvestorStep bro y.buyCost y.rentCost st.2.1 st.2.2
  ((hv, inv.1, inv.2), (equityTotal + inv.1, inv.2))

/-- The year loop of one trial, zipping the year inputs with that
trial's sampled housing and brokerage sequences. -/
def mcTrialGo (purchasePrice baseHomeValue : ℚ) :
    List McYear → List ℚ → List ℚ → (ℚ × ℚ × ℚ) → List (ℚ × ℚ)
  | [], _, _, _ => []
  | _, [], _, _ => []
  | _, _, [], _ => []
  | y :: ys, b :: bs, h :: hs, st =>
    let r := mcYearStep purchasePrice baseHomeValue y h b st
    r.2 :: mcTrialGo purchasePrice baseHomeValue ys bs hs r.1

/-- One full trial (src/app_original01.py lines 1994-2059): the home
value starts at the purchase price, the buy investment at 0 and the
rent investment at down payment plus security deposit
(`rentInvStart`). -/
def mcTrial (purchasePrice rentInvStart : ℚ) (years : List McYear)
    (bro hom : List ℚ) : List (ℚ × ℚ) :=
  mcTrialGo purchasePrice purchasePrice years bro hom (purchasePrice, 0, rentInvStart)

/-- The Monte Carlo runner (src/app_original01.py lines 1963-2075): one
generator seeded once, each trial drawing `T` brokerage returns then
`T` housing returns from it; outputs the per-year buy-win probability
array and the final-year buy and rent samples across trials. -/
def runMC (nTrials : ℕ) (tMean tStd tUnitScale : ℚ) (grossOfDraw : ℚ → ℚ)
    (purchasePrice rentInvStart : ℚ) (years : List McYear) (g : ℕ → ℚ) :
    List ℚ × List ℚ × List ℚ :=
  let T := years.length
  let paths := (List.range nTrials).map (fun t =>
    mcTrial purchasePrice rentInvStart years
      (sampleTReturns T tMean tStd tUnitScale g (2 * T * t))
      (sampleLognormalReturns T grossOfDraw g (2 * T * t + T)))
  ((List.range T).map (fun i =>
      (((paths.filter (fun p => decide ((p.getD i (0, 0)).2 < (p.getD i (0, 0)).1))).length : ℚ)
        / (nTrials : ℚ))),
   paths.map (fun p => (p.getLastD (0, 0)).1),
   paths.map (fun p => (p.getLastD (0, 0)).2))

/-! ## Concrete loans used to settle the claims -/

/-- A 1-year, 12%, monthly fixed loan of 1100 from 2025-01-01: the
rounded payment 97.73 falls short of the exact annuity value, leaving
a 4-cent balance after the nominal 12 periods. -/
def resLoan : AmortParams :=
  { principal := 1100, years := 1, periodsPerYear := 12, startDate := ⟨2025, 1, 1⟩,
    extraSchedule := [], rateSchedule := [], mortgageType := MType.Fixed,
    purchaseYear := 2025, mortgageRate := 12, pmiRate := 0, pmiEquityThreshold := 20,
    purchasePrice := 500000, refi := none }

/-- `resLoan` with a refinance into a 50000 principal (costs rolled
in) at 2025-06-01: the balance jumps upward at the transition. -/
def refiJumpLoan : AmortParams :=
  { resLoan with
    refi := some { startDate := ⟨2025, 6, 1⟩, principal := 50000, years := 2,
                   periodsPerYear := 12, rateSchedule := [], mortgageType := MType.Fixed,
                   mortgageRate := some 4 } }

/-- A 100-principal loan with a first-period extra payment of 99.984
(a sub-cent amount, as the monthly-rule-under-biweekly split can
produce): the clamp rounds `balance - extra` up to 0.02. -/
def clampLoan : AmortParams :=
  { resLoan with
    principal := 100
    extraSchedule := [(⟨2025, 1, 1⟩, 12498/125)] }

/-- The one-time extra-payment rule of the spec's example: 10000 in
June 2030. -/
def juneRule : EPRule :=
  { amount := 10000, freq := EPFreq.OneTime, startY := 2030, startM := 6,
    endY := 2030, endM := 6, interval := 1 }

/-- A 10-year 200000 monthly loan from 2025 carrying the expanded
June-2030 one-time extra payment. -/
def extraLoan : AmortParams :=
  { resLoan with
    principal := 200000
    years := 10
    mortgageRate := 5
    extraSchedule := expandExtraPayments [juneRule] 2025 10 PayFreq.Monthly }

/-- `resLoan` refinanced at 2026-01-01 into a 2-year variable loan of
50000 at 4%. -/
def variRefiLoan : AmortParams :=
  { resLoan with
    refi := some { startDate := ⟨2026, 1, 1⟩, principal := 50000, years := 2,
                   periodsPerYear := 12, rateSchedule := [], mortgageType := MType.Variable,
                   mortgageRate := some 4 } }

/-- A variable loan whose rate schedule has duplicate year-1 rows and a
negative rate. -/
def negRateLoan : AmortParams :=
  { resLoan with
    principal := 1000
    mortgageType := MType.Variable
    rateSchedule := [(1, 5), (1, -10)]
    mortgageRate := -10 }

/-! ## General lemmas -/

theorem npfPmtQ_intCast (c : ℚ) (m : ℤ) (pv : ℚ) :
    npfPmtQ c (m : ℚ) pv = npfPmt c m pv := by
  unfold npfPmtQ
  simp [Rat.den_intCast, Rat.num_intCast]

theorem amortLoop_ne_nil (P : AmortParams) (nr : RateSched) (fuel n : ℕ) (s : SimState)
    (h : 1 ≤ fuel) : amortLoop P nr fuel n s ≠ [] := by
  obtain ⟨k, rfl⟩ : ∃ k, fuel = k + 1 := ⟨fuel - 1, by omega⟩
  simp [amortLoop]

/-! ## The claims -/

/-- C1.  The opportunity-cost investor step of the cost projection:
with `d = buy_cost - rent_cost`, when `0 < d` the rent-side balance
compounds and receives `d` while the buy side only compounds; when
`d ≤ 0` the buy side compounds and receives `|d|` while the rent side
only compounds; at `d = 0` neither side receives a contribution.  The
Monte Carlo trial loop applies the identical step with the sampled
fractional return. -/
theorem investor_step_spec (r d buyInv rentInv bc rc : ℚ) :
    (0 < d → investorStep r d buyInv rentInv
        = (buyInv * (1 + r / 100), rentInv * (1 + r / 100) + d)) ∧
    (d ≤ 0 → investorStep r d buyInv rentInv
        = (buyInv * (1 + r / 100) + |d|, rentInv * (1 + r / 100))) ∧
    (investorStep r 0 buyInv rentInv
        = (buyInv * (1 + r / 100), rentInv * (1 + r / 100))) ∧
    (mcInvestorStep r bc rc buyInv rentInv
        = investorStep (100 * r) (bc - rc) buyInv rentInv) := by
  refine ⟨?_, ?_, ?_, ?_⟩
  · intro h
    rw [investorStep, if_pos h]
  · intro h
    rw [investorStep, if_neg (not_lt.mpr h)]
  · rw [investorStep, if_neg (lt_irrefl 0), abs_zero, add_zero]
  · unfold mcInvestorStep investorStep
    by_cases h : rc < bc
    · rw [if_pos h, if_pos (by linarith : (0:ℚ) < bc - rc)]
      simp only [Prod.mk.injEq]
      constructor <;> ring
    · rw [if_neg h, if_neg (by push_neg at h; intro hc; linarith : ¬ (0:ℚ) < bc - rc),
        abs_of_nonpos (by push_neg at h; linarith)]
      simp only [Prod.mk.injEq]
      constructor <;> ring

/-- C2 (counterexample).  The 1-year 12% fixed loan `resLoan` runs its
full 12 nominal periods and never reaches balance 0 (a 4-cent rounding
residual remains), and the refinance of `refiJumpLoan` makes the
emitted balance increase from period 4 to period 5. -/
theorem balance_monotone_payoff_counterexample :
    (amortizationSchedule resLoan).length = 12 ∧
    ((amortizationSchedule resLoan).all (fun r => r.balance != 0)) = true ∧
    ((amortizationSchedule resLoan).getD 11 dummyRecord).balance = 1/25 ∧
    ((amortizationSchedule refiJumpLoan).getD 4 dummyRecord).balance
      < ((amortizationSchedule refiJumpLoan).getD 5 dummyRecord).balance := by
  decide

/-- C2 (amended).  Away from a refinance transition, one simulation
step keeps the balance within `[0, prior balance]` whenever the prior
balance is a non-negative whole-cent amount and the computed
principal-plus-extra is non-negative; the balance may increase at a
refinance transition and need not reach exactly 0 at the nominal
term's last period. -/
theorem financeStep_balance_bounds (r pay b e : ℚ) (hb : Cents b) (hb0 : 0 ≤ b)
    (hpe : 0 ≤ round2 (pay - round2 (b * r)) + e) :
    0 ≤ (financeStep r pay b e).2.2.2 ∧ (financeStep r pay b e).2.2.2 ≤ b := by
  simp only [financeStep]
  by_cases hcl : round2 (pay - round2 (b * r)) + e > b
  · rw [if_pos hcl]
    have hsmall : |b - (round2 (b - e) + e)| ≤ 1/200 := by
      obtain ⟨h1, h2⟩ := round2_bounds (b - e)
      rw [abs_le]
      constructor <;> linarith
    rw [round2_eq_zero_of_abs_le hsmall]
    exact ⟨le_refl 0, hb0⟩
  · rw [if_neg hcl]
    push_neg at hcl
    constructor
    · exact round2_nonneg (by linarith)
    · obtain ⟨h1, h2⟩ := round2_bounds (b - (round2 (pay - round2 (b * r)) + e))
      exact Cents.le_of_le_add (round2_cents _) hb (by linarith)

/-- C2 witness: the bounds at the first period of a 1100 loan at 12%
with payment 97.73 and no extra. -/
theorem financeStep_balance_bounds_witness :
    0 ≤ (financeStep (1/100) (9773/100) 1100 0).2.2.2 ∧
    (financeStep (1/100) (9773/100) 1100 0).2.2.2 ≤ 1100 :=
  financeStep_balance_bounds (1/100) (9773/100) 1100 0 ⟨110000, by norm_num⟩
    (by norm_num) (by decide)

/-- C3 (counterexample).  With the sub-cent extra payment 99.984 on a
balance of 100, the clamp rounds the principal up to 0.02 and the
emitted principal + extra exceeds the prior balance (by 0.4 cents);
the ending balance is still 0. -/
theorem clamp_consequence_counterexample :
    ((amortizationSchedule clampLoan).getD 0 dummyRecord).principal
        + ((amortizationSchedule clampLoan).getD 0 dummyRecord).extra
      > clampLoan.principal ∧
    ((amortizationSchedule clampLoan).getD 0 dummyRecord).balance = 0 := by
  decide

/-- C3 (amended).  When rounded principal plus extra exceeds the
balance, the step clamps the principal to `round2(balance - extra)`
and recomputes the payment as principal + interest; otherwise principal
and payment are unchanged.  For a non-negative whole-cent balance the
ending balance is always ≥ 0, and principal + extra ≤ prior balance
holds whenever the extra is also a whole-cent amount (a sub-cent extra
can overshoot by under half a cent). -/
theorem financeStep_clamp_spec (r pay b e : ℚ) (hb : Cents b) (hb0 : 0 ≤ b) :
    (round2 (pay - round2 (b * r)) + e > b →
      (financeStep r pay b e).2.1 = round2 (b - e) ∧
      (financeStep r pay b e).2.2.1 = round2 (round2 (b - e) + round2 (b * r))) ∧
    (¬ (round2 (pay - round2 (b * r)) + e > b) →
      (financeStep r pay b e).2.1 = round2 (pay - round2 (b * r)) ∧
      (financeStep r pay b e).2.2.1 = pay) ∧
    0 ≤ (financeStep r pay b e).2.2.2 ∧
    (Cents e → (financeStep r pay b e).2.1 + e ≤ b) := by
  simp only [financeStep]
  by_cases hcl : round2 (pay - round2 (b * r)) + e > b
  · rw [if_pos hcl]
    refine ⟨fun _ => ⟨rfl, rfl⟩, fun h => absurd hcl h, ?_, ?_⟩
    · have hsmall : |b - (round2 (b - e) + e)| ≤ 1/200 := by
        obtain ⟨h1, h2⟩ := round2_bounds (b - e)
        rw [abs_le]
        constructor <;> linarith
      rw [round2_eq_zero_of_abs_le hsmall]
    · intro he
      rw [round2_eq_self (hb.sub he)]
      show b - e + e ≤ b
      linarith
  · rw [if_neg hcl]
    push_neg at hcl
    refine ⟨fun h => absurd h (not_lt.mpr hcl), fun _ => ⟨rfl, rfl⟩, ?_, fun _ => hcl⟩
    exact round2_nonneg (by linarith)

/-- C3 witness: the clamp at balance 100, extra 99.984, payment 8.88,
1% period rate. -/
theorem financeStep_clamp_spec_witness :
    (round2 ((888:ℚ)/100 - round2 (100 * (1/100))) + 12498/125 > 100 →
      (financeStep (1/100) (888/100) 100 (12498/125)).2.1 = round2 ((100:ℚ) - 12498/125) ∧
      (financeStep (1/100) (888/100) 100 (12498/125)).2.2.1
        = round2 (round2 ((100:ℚ) - 12498/125) + round2 ((100:ℚ) * (1/100)))) ∧
    (¬ (round2 ((888:ℚ)/100 - round2 (100 * (1/100))) + 12498/125 > 100) →
      (financeStep (1/100) (888/100) 100 (12498/125)).2.1
        = round2 ((888:ℚ)/100 - round2 (100 * (1/100))) ∧
      (financeStep (1/100) (888/100) 100 (12498/125)).2.2.1 = 888/100) ∧
    0 ≤ (financeStep (1/100) (888/100) 100 (12498/125)).2.2.2 ∧
    (Cents ((12498:ℚ)/125) →
      (financeStep (1/100) (888/100) 100 (12498/125)).2.1 + 12498/125 ≤ 100) :=
  financeStep_clamp_spec (1/100) (888/100) 100 (12498/125) ⟨10000, by norm_num⟩
    (by norm_num)

/-- C4.  `calculate_cost_comparison` of src/app.py compounds property
taxes at the appreciation rate (line 639) — with base 1000,
appreciation 10%, property-tax growth 3%, year 1 gives 1100 instead of
the 1030 the dedicated property-tax rate yields (as the original
engine and the other recurring categories do). -/
theorem property_tax_growth_divergence :
    yearTaxes 1000 10 1 = 1100 ∧
    yearTaxesOriginal 1000 3 1 = 1030 ∧
    yearInsurance 1000 3 1 = 1030 ∧
    yearMaintenance 1000 4 1 = 1040 ∧
    yearHoa 1000 2 1 = 1020 ∧
    yearTaxes 1000 10 1 ≠ yearTaxesOriginal 1000 3 1 := by
  refine ⟨?_, ?_, ?_, ?_, ?_, ?_⟩ <;>
    norm_num [yearTaxes, yearTaxesOriginal, yearInsurance, yearMaintenance, yearHoa]

/-- C5.  The June-2030 one-time rule expands to the single payment
date 2030-06-01, yet the ledger applies the 10000 extra in two
periods: 2030-06-01 (exact match) and 2030-07-01 (30 days away, within
the 30-day tolerance of the nearest-date lookup). -/
theorem one_time_extra_applied_twice :
    expandExtraPayments [juneRule] 2025 10 PayFreq.Monthly = [(⟨2030, 6, 1⟩, 10000)] ∧
    ((amortizationSchedule extraLoan).filter (fun r => r.extra != 0)).map
        (fun r => (r.date, r.extra))
      = [(⟨2030, 6, 1⟩, 10000), (⟨2030, 7, 1⟩, 10000)] := by
  decide

/-- C6 (counterexample).  In `variRefiLoan` the refinance into a
2-year variable loan happens at period 12; at period 13 the emitted
payment re-amortizes over `refi_years * 12 - 13 = 11` periods — the
global period index is subtracted, not the periods since the refinance
start — and differs from the annuity over the
`24 - (13 - 12) = 23` periods remaining in the refinance term. -/
theorem variable_reamortization_counterexample :
    ((amortizationSchedule variRefiLoan).getD 12 dummyRecord).isRefi = true ∧
    ((amortizationSchedule variRefiLoan).getD 11 dummyRecord).isRefi = false ∧
    ((amortizationSchedule variRefiLoan).getD 13 dummyRecord).payment
      = round2 (npfPmt ((4:ℚ)/100/12) (2 * 12 - 13)
          ((amortizationSchedule variRefiLoan).getD 12 dummyRecord).balance) ∧
    ((amortizationSchedule variRefiLoan).getD 13 dummyRecord).payment
      ≠ round2 (npfPmt ((4:ℚ)/100/12) (2 * 12 - (13 - 12))
          ((amortizationSchedule variRefiLoan).getD 12 dummyRecord).balance) := by
  decide

/-- C6 (amended).  At the monthly frequency, in every non-transition
period `n > 0` of a variable-rate loan the payment is recomputed by the
annuity formula at the current balance and current rate over
`active term (years) × 12 − n` periods, `n` being the period index
counted from the **original** loan start (so after a refinance the
count is the refinance term minus all periods elapsed since the
original start); the final-payment clamp may still replace this
payment. -/
theorem amortStep_variable_reamortizes (P : AmortParams) (nr : RateSched)
    (s : SimState) (n : ℕ)
    (htrans : P.refi = none ∨ s.isRefi = true)
    (hvar : s.mortgageType = MType.Variable)
    (hppy : s.ppy = 12) (hn : 0 < n)
    (hnoclamp :
      round2 (round2 (npfPmt (stepRate P s n / 12) ((activeYears P s * 12 : ℕ) - (n : ℤ))
            s.balance)
          - round2 (s.balance * (stepRate P s n / 12)))
        + extraFor P.extraSchedule (stepDate P s n) s.ppy ≤ s.balance) :
    (amortStep P nr s n).2.payment
      = round2 (npfPmt (stepRate P s n / 12) ((activeYears P s * 12 : ℕ) - (n : ℤ))
          s.balance) := by
  have htr : transitionState P nr s n
      = (s, max 1 ((stepDate P s n).year - s.purchaseYear + 1)) := by
    unfold transitionState
    rcases htrans with h | h
    · rw [h]
    · cases hr : P.refi with
      | none => rfl
      | some R =>
        exact if_neg (fun hc => hc.1 h)
  unfold stepRate at hnoclamp ⊢
  rw [hppy] at hnoclamp
  simp only [amortStep, htr]
  rw [if_pos (⟨hvar, hn⟩ : s.mortgageType = MType.Variable ∧ 0 < n)]
  rw [hppy]
  have hc12 : ((12 : ℕ) : ℚ) = (12 : ℚ) := by norm_num
  rw [hc12]
  have hnper : ((((activeYears P s * 12 : ℕ) : ℤ) : ℚ) - (((n : ℤ)) : ℚ)) * 12 / (12 : ℚ)
      = ((((activeYears P s * 12 : ℕ) : ℤ) - (n : ℤ) : ℤ) : ℚ) := by
    push_cast
    ring
  rw [hnper, npfPmtQ_intCast]
  have hsp : ∀ x : ℚ, scalePayment 12 x = round2 x := by
    intro x
    unfold scalePayment
    rw [if_pos rfl]
  rw [hsp]
  simp only [financeStep]
  rw [if_neg (not_lt.mpr hnoclamp)]

/-- C6 witness: a fresh 2-year variable loan at 4% on balance 50000,
period 1, re-amortized over 23 remaining months. -/
theorem amortStep_variable_reamortizes_witness :
    (amortStep
        { principal := 50000, years := 2, periodsPerYear := 12,
          startDate := ⟨2025, 1, 1⟩, extraSchedule := [], rateSchedule := [(1, 4)],
          mortgageType := MType.Variable, purchaseYear := 2025, mortgageRate := 4,
          pmiRate := 0, pmiEquityThreshold := 20, purchasePrice := 500000, refi := none }
        [(1, 4)]
        { balance := 50000, payment := 217175/100, isRefi := false, refiStartPeriod := 0,
          ppy := 12, rateSched := [(1, 4)], mortgageType := MType.Variable,
          purchaseYear := 2025 }
        1).2.payment
      = round2 (npfPmt
          (stepRate
            { principal := 50000, years := 2, periodsPerYear := 12,
              startDate := ⟨2025, 1, 1⟩, extraSchedule := [], rateSchedule := [(1, 4)],
              mortgageType := MType.Variable, purchaseYear := 2025, mortgageRate := 4,
              pmiRate := 0, pmiEquityThreshold := 20, purchasePrice := 500000,
              refi := none }
            { balance := 50000, payment := 217175/100, isRefi := false,
              refiStartPeriod := 0, ppy := 12, rateSched := [(1, 4)],
              mortgageType := MType.Variable, purchaseYear := 2025 }
            1 / 12)
          ((2 * 12 : ℕ) - (1 : ℤ)) 50000) :=
  amortStep_variable_reamortizes _ _ _ 1 (Or.inl rfl) rfl rfl (by norm_num) (by decide)

/-- C8 (counterexample).  A schedule with duplicate year-1 rows, one
of them a negative rate, is not rejected: the full 12-period ledger is
produced, the duplicate resolves to the last row and the negative rate
flows into the ledger (interest −8.33 on the first period). -/
theorem rate_schedule_validation_counterexample :
    (amortizationSchedule negRateLoan).length = 12 ∧
    ((amortizationSchedule negRateLoan).getD 0 dummyRecord).effRate = -10 ∧
    ((amortizationSchedule negRateLoan).getD 0 dummyRecord).interest = -833/100 := by
  decide

/-- C8 (amended).  `amortization_schedule` performs no validation of
the rate schedule: for every input — duplicate year keys and negative
rates included — a ledger is produced (non-empty whenever the nominal
term has at least one period), the schedule is only normalized by
synthesizing a year-1 row when absent. -/
theorem amortizationSchedule_rejects_nothing (P : AmortParams)
    (h : 1 ≤ P.years * P.periodsPerYear) :
    amortizationSchedule P ≠ [] := by
  unfold amortizationSchedule
  apply amortLoop_ne_nil
  cases hr : P.refi with
  | none =>
    simpa using h
  | some R =>
    show 1 ≤ (max ((P.years * P.periodsPerYear : ℕ) : ℤ)
        (refiStartPeriodCount P.startDate R P.periodsPerYear
          + ((R.years * R.periodsPerYear : ℕ) : ℤ))).toNat
    have h1 : ((P.years * P.periodsPerYear : ℕ) : ℤ)
        ≤ max ((P.years * P.periodsPerYear : ℕ) : ℤ)
          (refiStartPeriodCount P.startDate R P.periodsPerYear
            + ((R.years * R.periodsPerYear : ℕ) : ℤ)) := le_max_left _ _
    have h2 := Int.toNat_le_toNat h1
    rw [Int.toNat_natCast] at h2
    omega

/-- C8 witness: the duplicate-year negative-rate loan yields a
non-empty ledger. -/
theorem amortizationSchedule_rejects_nothing_witness :
    amortizationSchedule negRateLoan ≠ [] :=
  amortizationSchedule_rejects_nothing negRateLoan (by decide)

theorem filter_getLast_spec (p : SchedRow → Bool) :
    ∀ l : List SchedRow, (∃ r ∈ l, p r = true) →
      ∃ i, i < l.length ∧ p (l.getD i dummySchedRow) = true ∧
        (∀ j, i < j → j < l.length → p (l.getD j dummySchedRow) = false) ∧
        (l.filter p).getLast? = some (l.getD i dummySchedRow) := by
  intro l
  induction l with
  | nil =>
    intro h
    simp at h
  | cons x xs ih =>
    intro h
    by_cases hxs : ∃ r ∈ xs, p r = true
    · obtain ⟨i, hi, hpi, hmax, hlast⟩ := ih hxs
      refine ⟨i + 1, by simpa using hi, by simpa using hpi, ?_, ?_⟩
      · intro j h1 h2
        cases j with
        | zero => omega
        | succ j =>
          have := hmax j (by omega) (by simpa using h2)
          simpa using this
      · have hne2 : xs.filter p ≠ [] := by
          rw [ne_eq, List.filter_eq_nil_iff]
          push_neg
          obtain ⟨r, hr, hpr⟩ := hxs
          exact ⟨r, hr, by simp [hpr]⟩
        obtain ⟨y, ys, hys⟩ := List.exists_cons_of_ne_nil hne2
        rw [List.filter_cons]
        by_cases hpx : p x
        · rw [if_pos hpx, hys, List.getLast?_cons_cons, ← hys, hlast]
          simp
        · rw [if_neg hpx, hlast]
          simp
    · have hpx : p x = true := by
        obtain ⟨r, hr, hpr⟩ := h
        rcases List.mem_cons.mp hr with rfl | hmem
        · exact hpr
        · exact absurd ⟨r, hmem, hpr⟩ hxs
      refine ⟨0, by simp, by simpa using hpx, ?_, ?_⟩
      · intro j h1 h2
        cases j with
        | zero => omega
        | succ j =>
          have hj : j < xs.length := by simpa using h2
          have hmem : xs.getD j dummySchedRow ∈ xs := by
            simp only [List.getD_eq_getElem?_getD, List.getElem?_eq_getElem hj,
              Option.getD_some]
            exact List.getElem_mem hj
          have hred : (x :: xs).getD (j + 1) dummySchedRow = xs.getD j dummySchedRow := by
            simp
          rw [hred]
          by_contra hc
          have hpt : p (xs.getD j dummySchedRow) = true := by
            cases hpj : p (xs.getD j dummySchedRow) with
            | true => rfl
            | false => exact absurd hpj hc
          exact hxs ⟨_, hmem, hpt⟩
      · have hnil : xs.filter p = [] :=
          List.filter_eq_nil_iff.mpr (fun a ha hpa => hxs ⟨a, ha, hpa⟩)
        rw [List.filter_cons, if_pos hpx, hnil]
        simp

/-- C10.  Applied to a non-empty ledger, `get_remaining_balance`
returns the balance of the last row dated on or before the refinance
date; when the refinance date precedes every row it does not fail and
returns the first row's balance (the balance after the first payment,
not the original principal). -/
theorem getRemainingBalance_spec (sched : List SchedRow) (d : Date) (hne : sched ≠ []) :
    ((∃ r ∈ sched, r.date.toDays ≤ d.toDays) →
      ∃ i, i < sched.length ∧
        (sched.getD i dummySchedRow).date.toDays ≤ d.toDays ∧
        (∀ j, i < j → j < sched.length →
          d.toDays < (sched.getD j dummySchedRow).date.toDays) ∧
        getRemainingBalance sched d = some (sched.getD i dummySchedRow).balance) ∧
    ((∀ r ∈ sched, d.toDays < r.date.toDays) →
      getRemainingBalance sched d = sched.head?.map SchedRow.balance ∧
      getRemainingBalance sched d = some (sched.getD 0 dummySchedRow).balance) := by
  constructor
  · intro h
    obtain ⟨r, hr, hrd⟩ := h
    obtain ⟨i, hi, hpi, hmax, hlast⟩ := filter_getLast_spec
      (fun r => decide (r.date.toDays ≤ d.toDays)) sched
      ⟨r, hr, decide_eq_true hrd⟩
    refine ⟨i, hi, of_decide_eq_true hpi, ?_, ?_⟩
    · intro j h1 h2
      have := hmax j h1 h2
      exact not_le.mp (by simpa using this)
    · unfold getRemainingBalance
      rw [hlast]
  · intro h
    have hnilf : sched.filter (fun r => decide (r.date.toDays ≤ d.toDays)) = [] :=
      List.filter_eq_nil_iff.mpr (fun a ha hpa =>
        absurd (of_decide_eq_true hpa) (not_le.mpr (h a ha)))
    unfold getRemainingBalance
    rw [hnilf]
    obtain ⟨x, xs, rfl⟩ := List.exists_cons_of_ne_nil hne
    exact ⟨rfl, rfl⟩

/-- C10 witness: a refinance date before both ledger rows returns the
first row's balance. -/
theorem getRemainingBalance_spec_witness :
    getRemainingBalance [⟨⟨2025, 1, 1⟩, 99⟩, ⟨⟨2025, 2, 1⟩, 98⟩] ⟨2024, 6, 1⟩
        = (([⟨⟨2025, 1, 1⟩, 99⟩, ⟨⟨2025, 2, 1⟩, 98⟩] : List SchedRow).head?.map
            SchedRow.balance) ∧
    getRemainingBalance [⟨⟨2025, 1, 1⟩, 99⟩, ⟨⟨2025, 2, 1⟩, 98⟩] ⟨2024, 6, 1⟩
        = some ((([⟨⟨2025, 1, 1⟩, 99⟩, ⟨⟨2025, 2, 1⟩, 98⟩] : List SchedRow).getD 0
            dummySchedRow).balance) :=
  (getRemainingBalance_spec [⟨⟨2025, 1, 1⟩, 99⟩, ⟨⟨2025, 2, 1⟩, 98⟩] ⟨2024, 6, 1⟩
    (by decide)).2 (by decide)

/-- C9.  The Monte Carlo runner is a deterministic function of the
seeded draw stream and the deterministic inputs: two runs whose
streams agree on the consumed prefix (2 draws per year per trial)
produce identical win-probability and final-year sample arrays — in
particular, re-running with the same seed and trial count reproduces
the output exactly. -/
theorem runMC_deterministic (nTrials : ℕ) (tMean tStd tUnitScale : ℚ)
    (grossOfDraw : ℚ → ℚ) (purchasePrice rentInvStart : ℚ) (years : List McYear)
    (g₁ g₂ : ℕ → ℚ)
    (h : ∀ i, i < 2 * years.length * nTrials → g₁ i = g₂ i) :
    runMC nTrials tMean tStd tUnitScale grossOfDraw purchasePrice rentInvStart years g₁
      = runMC nTrials tMean tStd tUnitScale grossOfDraw purchasePrice rentInvStart
          years g₂ := by
  have hpaths : (List.range nTrials).map (fun t =>
      mcTrial purchasePrice rentInvStart years
        (sampleTReturns years.length tMean tStd tUnitScale g₁ (2 * years.length * t))
        (sampleLognormalReturns years.length grossOfDraw g₁
          (2 * years.length * t + years.length)))
      = (List.range nTrials).map (fun t =>
      mcTrial purchasePrice rentInvStart years
        (sampleTReturns years.length tMean tStd tUnitScale g₂ (2 * years.length * t))
        (sampleLognormalReturns years.length grossOfDraw g₂
          (2 * years.length * t + years.length))) := by
    apply List.map_congr_left
    intro t ht
    rw [List.mem_range] at ht
    have he0 : 2 * years.length * (t + 1)
        = 2 * years.length * t + 2 * years.length := by ring
    have h2 : 2 * years.length * (t + 1) ≤ 2 * years.length * nTrials :=
      Nat.mul_le_mul_left _ ht
    have hb : sampleTReturns years.length tMean tStd tUnitScale g₁ (2 * years.length * t)
        = sampleTReturns years.length tMean tStd tUnitScale g₂ (2 * years.length * t) := by
      unfold sampleTReturns
      apply List.map_congr_left
      intro i hi
      rw [List.mem_range] at hi
      rw [h _ (by omega)]
    have hh : sampleLognormalReturns years.length grossOfDraw g₁
          (2 * years.length * t + years.length)
        = sampleLognormalReturns years.length grossOfDraw g₂
          (2 * years.length * t + years.length) := by
      unfold sampleLognormalReturns
      apply List.map_congr_left
      intro i hi
      rw [List.mem_range] at hi
      rw [h _ (by omega)]
    rw [hb, hh]
  simp only [runMC]
  rw [hpaths]

/-- C9 witness: two streams differing beyond the consumed prefix give
the same one-trial, one-year run. -/
theorem runMC_deterministic_witness :
    runMC 1 7 15 1 (fun x => x * x) 500000 102000 [⟨50000, 30000, 400000⟩]
        (fun i => (i : ℚ) / 10)
      = runMC 1 7 15 1 (fun x => x * x) 500000 102000 [⟨50000, 30000, 400000⟩]
        (fun i => if i < 2 then (i : ℚ) / 10 else 99) :=
  runMC_deterministic 1 7 15 1 (fun x => x * x) 500000 102000 [⟨50000, 30000, 400000⟩]
    (fun i => (i : ℚ) / 10) (fun i => if i < 2 then (i : ℚ) / 10 else 99)
    (by decide)

/-- C7.  `calculate_breakeven` returns `None` exactly when the
upfront-financed refinance cost is zero or the cumulative
(interest + PMI) savings never reach it; otherwise it returns the
first 1-based month whose cumulative savings reach the cost, paired
with that month divided by 12 as a year count. -/
theorem calculateBreakeven_spec (noRefi withRefi : List MonthlyRow) (rc rpc : ℚ)
    (ru pu : Bool) :
    (calculateBreakeven noRefi withRefi rc rpc ru pu = none ↔
      ((if ru then rc else 0) + (if pu then rpc else 0) = 0 ∨
        ∀ s ∈ savingsSeries noRefi withRefi,
          s < (if ru then rc else 0) + (if pu then rpc else 0))) ∧
    (∀ y n, calculateBreakeven noRefi withRefi rc rpc ru pu = some (y, n) →
      1 ≤ n ∧ n ≤ (savingsSeries noRefi withRefi).length ∧ y = (n : ℚ) / 12 ∧
      (if ru then rc else 0) + (if pu then rpc else 0)
        ≤ (savingsSeries noRefi withRefi).getD (n - 1) 0 ∧
      ∀ j, j < n - 1 →
        (savingsSeries noRefi withRefi).getD j 0
          < (if ru then rc else 0) + (if pu then rpc else 0)) := by
  have hunf : calculateBreakeven noRefi withRefi rc rpc ru pu
      = (if ((if ru then rc else 0) + (if pu then rpc else 0)) = 0 then none
         else
           match (savingsSeries noRefi withRefi).findIdx?
               (fun s => decide (((if ru then rc else 0) + (if pu then rpc else 0)) ≤ s))
             with
           | some i => some ((((i + 1 : ℕ) : ℚ)) / 12, i + 1)
           | none => none) := rfl
  rw [hunf]
  generalize htot : (if ru then rc else 0) + (if pu then rpc else 0) = total
  generalize hsv : savingsSeries noRefi withRefi = sav
  by_cases h0 : total = 0
  · rw [if_pos h0]
    constructor
    · exact ⟨fun _ => Or.inl h0, fun _ => rfl⟩
    · intro y n hyn
      exact Option.noConfusion hyn
  · rw [if_neg h0]
    cases hf : sav.findIdx? (fun s => decide (total ≤ s)) with
    | none =>
      have hall : ∀ s ∈ sav, s < total := by
        intro s hs
        have := List.findIdx?_eq_none_iff.mp hf s hs
        exact not_le.mp (by simpa using this)
      constructor
      · exact ⟨fun _ => Or.inr hall, fun _ => rfl⟩
      · intro y n hyn
        exact Option.noConfusion hyn
    | some i =>
      obtain ⟨hilen, hpi, hprev⟩ := List.findIdx?_eq_some_iff_getElem.mp hf
      have hgetD : sav.getD i 0 = sav.get ⟨i, hilen⟩ := by
        simp [List.getD_eq_getElem?_getD, List.getElem?_eq_getElem hilen]
      constructor
      · constructor
        · intro hc
          exact Option.noConfusion hc
        · intro hc
          rcases hc with hc | hc
          · exact absurd hc h0
          · have hmem : sav.get ⟨i, hilen⟩ ∈ sav := List.get_mem sav i hilen
            have hlt := hc _ hmem
            have hge : total ≤ sav.get ⟨i, hilen⟩ := of_decide_eq_true hpi
            linarith
      · intro y n hyn
        have hinj := Option.some.inj hyn
        have hy : (((i + 1 : ℕ) : ℚ)) / 12 = y := congrArg Prod.fst hinj
        have hn : i + 1 = n := congrArg Prod.snd hinj
        refine ⟨by omega, by omega, ?_, ?_, ?_⟩
        · rw [← hy, ← hn]
        · have hn1 : n - 1 = i := by omega
          rw [hn1, hgetD]
          exact of_decide_eq_true hpi
        · intro j hj
          have hji : j < i := by omega
          have hjlen : j < sav.length := Nat.lt_trans hji hilen
          have := hprev j hji
          have hgetDj : sav.getD j 0 = sav.get ⟨j, hjlen⟩ := by
            simp [List.getD_eq_getElem?_getD, List.getElem?_eq_getElem hjlen]
          rw [hgetDj]
          exact not_le.mp (by simpa using this)

/-- C7 witness: upfront cost 3000 against constant 250 monthly
savings reaches breakeven at month 12, year 1. -/
theorem calculateBreakeven_spec_witness :
    1 ≤ 12 ∧
    12 ≤ (savingsSeries (List.replicate 14 ⟨250, 0⟩) (List.replicate 14 ⟨0, 0⟩)).length ∧
    (1 : ℚ) = ((12 : ℕ) : ℚ) / 12 ∧
    (if true then (3000 : ℚ) else 0) + (if true then (0 : ℚ) else 0)
      ≤ (savingsSeries (List.replicate 14 ⟨250, 0⟩) (List.replicate 14 ⟨0, 0⟩)).getD
          (12 - 1) 0 ∧
    (∀ j, j < 12 - 1 →
      (savingsSeries (List.replicate 14 ⟨250, 0⟩) (List.replicate 14 ⟨0, 0⟩)).getD j 0
        < (if true then (3000 : ℚ) else 0) + (if true then (0 : ℚ) else 0)) :=
  (calculateBreakeven_spec (List.replicate 14 ⟨250, 0⟩) (List.replicate 14 ⟨0, 0⟩)
    3000 0 true true).2 1 12 (by decide)

/-- C1 witness: a year costing 5 less to buy (`d = -5`) credits the
buy-side investment with 5 after compounding at 7%. -/
theorem investor_step_spec_witness :
    investorStep 7 (-5) 100 200 = (100 * (1 + 7 / 100) + |(-5 : ℚ)|, 200 * (1 + 7 / 100)) :=
  (investor_step_spec 7 (-5) 100 200 0 0).2.1 (by norm_num)

end RentVsBuy
